import Mathlib

/-!
Shallow embedding of the Tegra210 BPMP mailbox transport
(drivers/firmware/tegra/mail_t210.c).

The arbitration semaphore is a 32-bit hardware word accessed through three
sub-registers: a status read, a set-bits write and a clear-bits write.  Each
channel owns the 2-bit slice at bit position `ch * 2` of that word.  The
state of the semaphore word is modelled as a `Nat`; the set/clear writes are
modelled as the corresponding bit operations.  Structures that live in
`bpmp.h` (which is not part of this tree) are modelled from the spec and
say so in their doc comments.
-/

/-- Modelled from the spec: `NR_CHANNELS` is declared in `bpmp.h`, which is
not part of this tree; the spec fixes the channel space at 4 CPUs × 3
channel kinds = 12 statically numbered channels. -/
def NR_CHANNELS : Nat := 12

/-- First CPU-to-BPMP non-atomic (deferrable) channel, `CPU0_OB_CH1` in the
source.  `Int`-valued because the C functions using it take C `int`s. -/
def CPU0_OB_CH1 : Int := 4

/-- Last CPU-to-BPMP non-atomic (deferrable) channel, `CPU3_OB_CH1`. -/
def CPU3_OB_CH1 : Int := 7

/-- First BPMP-to-CPU inbound channel, `CPU0_IB_CH` in the source. -/
def CPU0_IB_CH : Nat := 8

/-- `PER_CPU_IB_CH(i)`: CPU `i`'s dedicated inbound channel index. -/
def PER_CPU_IB_CH (i : Nat) : Nat := CPU0_IB_CH + i

/-- Read of the arbitration-semaphore status sub-register (`STA_OFFSET`):
returns the full 32-bit status word. -/
def sema_read (s : Nat) : Nat := s

/-- Write `v` to the set-bits sub-register (`SET_OFFSET`): every bit set in
`v` becomes set in the status word, all other bits are untouched. -/
def sema_write_set (s v : Nat) : Nat := s ||| v

/-- Write `v` to the clear-bits sub-register (`CLR_OFFSET`): every bit set
in `v` becomes clear in the status word, all other bits are untouched.  The
register is 32 bits wide, so clearing masks with the 32-bit complement. -/
def sema_write_clr (s v : Nat) : Nat := s &&& (v ^^^ 0xFFFFFFFF)

/-- `CH_MASK(ch)`: the mask of channel `ch`'s 2-bit token slice. -/
def CH_MASK (ch : Nat) : Nat := 0x3 <<< (ch * 2)

/-- `SL_SIGL(ch)` (pattern `00`): slave channel in signalled state. -/
def SL_SIGL (ch : Nat) : Nat := 0x0 <<< (ch * 2)

/-- `SL_QUED(ch)` (pattern `01`): slave channel is in queue. -/
def SL_QUED (ch : Nat) : Nat := 0x1 <<< (ch * 2)

/-- `MA_FREE(ch)` (pattern `10`): master channel is free. -/
def MA_FREE (ch : Nat) : Nat := 0x2 <<< (ch * 2)

/-- `MA_ACKD(ch)` (pattern `11`): master channel is acked. -/
def MA_ACKD (ch : Nat) : Nat := 0x3 <<< (ch * 2)

/-- `bpmp_ch_sta(ch)`: status word masked to channel `ch`'s token slice. -/
def bpmp_ch_sta (s : Nat) (ch : Nat) : Nat := sema_read s &&& CH_MASK ch

/-- `bpmp_master_free`: the token slice equals the `MA_FREE` pattern. -/
def bpmp_master_free (s : Nat) (ch : Nat) : Bool :=
  bpmp_ch_sta s ch == MA_FREE ch

/-- `bpmp_slave_signalled`: the token slice equals the `SL_SIGL` pattern. -/
def bpmp_slave_signalled (s : Nat) (ch : Nat) : Bool :=
  bpmp_ch_sta s ch == SL_SIGL ch

/-- `bpmp_master_acked`: the token slice equals the `MA_ACKD` pattern. -/
def bpmp_master_acked (s : Nat) (ch : Nat) : Bool :=
  bpmp_ch_sta s ch == MA_ACKD ch

/-- `bpmp_signal_slave`: hand the channel to the peer by writing the full
channel mask to the clear-bits sub-register. -/
def bpmp_signal_slave (s : Nat) (ch : Nat) : Nat :=
  sema_write_clr s (CH_MASK ch)

/-- Modelled from the spec: the header flag word of a channel area carries
two independent bits, `DO_ACK` and `RING_DOORBELL`, declared in `bpmp.h`
(not part of this tree); the source only ever tests them individually, so
they are modelled as two booleans. -/
structure Flags where
  doAck : Bool
  ringDoorbell : Bool
deriving DecidableEq

/-- `bpmp_ack_master`: write the `MA_ACKD` pattern to the set-bits
sub-register; when `DO_ACK` is not set, additionally clear the bit in which
`MA_ACKD` and `MA_FREE` differ, so the channel moves straight to free. -/
def bpmp_ack_master (s : Nat) (ch : Nat) (flags : Flags) : Nat :=
  let s1 := sema_write_set s (MA_ACKD ch)
  if flags.doAck then s1
  else sema_write_clr s1 (MA_ACKD ch ^^^ MA_FREE ch)

/-- `bpmp_free_master`: `MA_ACKD` to `MA_FREE` by clearing the bit in which
the two patterns differ. -/
def bpmp_free_master (s : Nat) (ch : Nat) : Nat :=
  sema_write_clr s (MA_ACKD ch ^^^ MA_FREE ch)

/-- Modelled from the spec: the peer's completion step is external to this
core ("Peer side (external, not under this core's control, but its effects
are observed by this core)"); its observable effect is writing a token
pattern into channel `ch`'s slice while leaving every other slice alone. -/
def peer_write_slice (s : Nat) (ch : Nat) (pat : Nat) : Nat :=
  sema_write_set (sema_write_clr s (CH_MASK ch)) pat

/-- Modelled from the spec: `MSG_DATA_MIN_SZ` is the fixed payload capacity
declared in `bpmp.h` (not part of this tree); the spec caps payloads "at a
small maximum, e.g. on the order of 120 bytes". -/
def MSG_DATA_MIN_SZ : Nat := 120

/-- Modelled from the spec: `struct mb_data` is declared in `bpmp.h` (not
part of this tree); each channel area holds a small header (status/opcode
`code`, a `flags` word) followed by a fixed-capacity opaque payload. -/
structure MbData where
  code : Int
  flags : Flags
  data : List Nat

/-- Mailbox state touched by `bpmp_return_data`: the semaphore word, the
per-channel outbound and inbound areas, a count of doorbell rings and a
count of emitted warnings. -/
structure MailState where
  sema : Nat
  areaOb : Nat → MbData
  areaIb : Nat → MbData
  doorbells : Nat
  warnings : Nat

/-- `memcpy(dst, src, sz)` on byte lists: the first `sz` bytes come from
`src`, the rest of `dst` is untouched. -/
def memcpy_bytes (dst src : List Nat) (sz : Nat) : List Nat :=
  src.take sz ++ dst.drop sz

/-- `bpmp_ring_doorbell`: ring the fixed outbound doorbell
(`CPU_OB_DOORBELL`); modelled as counting the rings. -/
def bpmp_ring_doorbell (st : MailState) : MailState :=
  { st with doorbells := st.doorbells + 1 }

/-- `bpmp_return_data`: size check (`WARN_ON` and return on violation),
then write `code` and the payload into the outbound area, acknowledge with
the inbound area's flags, and ring the doorbell when requested. -/
def bpmp_return_data (st : MailState) (ch : Nat) (code : Int)
    (data : List Nat) (sz : Nat) : MailState :=
  if sz > MSG_DATA_MIN_SZ then
    { st with warnings := st.warnings + 1 }
  else
    let p := st.areaOb ch
    let p2 := { p with code := code, data := memcpy_bytes p.data data sz }
    let st2 := { st with areaOb := fun c => if c = ch then p2 else st.areaOb c }
    let flags := (st2.areaIb ch).flags
    let st3 := { st2 with sema := bpmp_ack_master st2.sema ch flags }
    if flags.ringDoorbell then bpmp_ring_doorbell st3 else st3

/-- `bpmp_thread_ch_index`: map a channel index to its deferrable-channel
ordinal, `-1` when the channel is not a deferrable outbound channel. -/
def bpmp_thread_ch_index (ch : Int) : Int :=
  if ch < CPU0_OB_CH1 ∨ ch > CPU3_OB_CH1 then -1
  else ch - CPU0_OB_CH1

/-- `bpmp_thread_ch`: map a deferrable-channel ordinal to its channel. -/
def bpmp_thread_ch (idx : Int) : Int := CPU0_OB_CH1 + idx

/-- Linux `ENODEV` errno value. -/
def ENODEV : Int := 19

/-- Linux `EFAULT` errno value. -/
def EFAULT : Int := 14

/-- Environment `bpmp_connect` runs against: whether each of the two
register windows maps, the semaphore status word read during the liveness
check, and the address the trigger/result handshake yields per channel. -/
structure ConnectEnv where
  hasAtomics : Bool
  hasArbSema : Bool
  staWord : Nat
  chanAddr : Nat → Nat

/-- `bpmp_channel_area`: trigger-write for channel `ch` followed by the
result-read; the environment determines the address obtained. -/
def bpmp_channel_area (env : ConnectEnv) (ch : Nat) : Nat := env.chanAddr ch

/-- Result of `bpmp_connect`: the C return value, the ordered list of
channels for which a trigger-write/result-read was issued, and the channel
area mappings installed. -/
structure ConnectResult where
  ret : Int
  queried : List Nat
  mapped : List (Nat × Nat)

/-- The first loop of `bpmp_connect`: query channel addresses starting at
`i` for `n` more channels; stop at the first zero address.  Returns the
trace of queried channels and whether every address resolved. -/
def connect_query_loop (env : ConnectEnv) : Nat → Nat → List Nat × Bool
  | _, 0 => ([], true)
  | i, n+1 =>
    if bpmp_channel_area env i = 0 then ([i], false)
    else
      let r := connect_query_loop env (i+1) n
      (i :: r.1, r.2)

/-- `bpmp_connect`: map the two register windows (`-ENODEV` when either is
absent), liveness-check the status word (`-ENODEV` when zero), then query
every channel's area address in index order (`-EFAULT` at the first zero
address, before any later channel is queried and before any mapping), and
finally map every channel area. -/
def bpmp_connect (env : ConnectEnv) : ConnectResult :=
  if !env.hasAtomics then ⟨-ENODEV, [], []⟩
  else if !env.hasArbSema then ⟨-ENODEV, [], []⟩
  else if env.staWord = 0 then ⟨-ENODEV, [], []⟩
  else
    let q := connect_query_loop env 0 NR_CHANNELS
    if q.2 then
      ⟨0, q.1, (List.range NR_CHANNELS).map fun i => (i, env.chanAddr i)⟩
    else ⟨-EFAULT, q.1, []⟩

/-- Environment `bpmp_init_irq` runs against: the result that registering
the doorbell handler for CPU `i` returns (0 on success). -/
structure IrqEnv where
  regResult : Nat → Int

/-- The loop of `bpmp_init_irq` starting at CPU `i` with `n` CPUs left:
returns the C return value and the list of registrations attempted, each as
a pair of the CPU and the inbound channel bound to its handler. -/
def init_irq_loop (env : IrqEnv) : Nat → Nat → Int × List (Nat × Nat)
  | _, 0 => (0, [])
  | i, n+1 =>
    let ch := PER_CPU_IB_CH i
    let r := env.regResult i
    if r ≠ 0 then (r, [(i, ch)])
    else
      let rest := init_irq_loop env (i+1) n
      (rest.1, (i, ch) :: rest.2)

/-- `bpmp_init_irq`: register the doorbell handler for CPUs 0..3, each
bound to that CPU's dedicated inbound channel; abort on the first error. -/
def bpmp_init_irq (env : IrqEnv) : Int × List (Nat × Nat) :=
  init_irq_loop env 0 4

/-- Proof helper: channel `ch`'s token slice as a 2-bit value in `[0, 4)`,
so that the register operations become arithmetic on 2-bit values. -/
def chSlice (s ch : Nat) : Nat := (s >>> (ch * 2)) % 4

/-! ### Helper lemmas: the 2-bit slice view of the semaphore word -/

theorem chSlice_lt_four (s ch : Nat) : chSlice s ch < 4 :=
  Nat.mod_lt _ (by norm_num)

theorem testBit_three (i : Nat) : Nat.testBit 3 i = decide (i < 2) := by
  have h : (3 : Nat) = 2 ^ 2 - 1 := by norm_num
  rw [h, Nat.testBit_two_pow_sub_one]

theorem testBit_chSlice (s ch i : Nat) :
    (chSlice s ch).testBit i = (decide (i < 2) && s.testBit (ch * 2 + i)) := by
  have h4 : (4 : Nat) = 2 ^ 2 := by norm_num
  rw [chSlice, h4, Nat.testBit_mod_two_pow, Nat.testBit_shiftRight]

theorem ch_sta_eq_shift (s ch : Nat) :
    bpmp_ch_sta s ch = chSlice s ch <<< (ch * 2) := by
  apply Nat.eq_of_testBit_eq
  intro i
  rw [bpmp_ch_sta, sema_read, CH_MASK]
  rw [Nat.testBit_land, Nat.testBit_shiftLeft, Nat.testBit_shiftLeft,
    testBit_chSlice, testBit_three]
  by_cases hk : ch * 2 ≤ i
  · have hik : ch * 2 + (i - ch * 2) = i := by omega
    simp [hk, hik, Bool.and_comm]
  · simp [hk]

theorem shiftLeft_inj (a b k : Nat) : a <<< k = b <<< k ↔ a = b := by
  rw [Nat.shiftLeft_eq, Nat.shiftLeft_eq]
  constructor
  · intro h
    exact Nat.eq_of_mul_eq_mul_right (Nat.two_pow_pos k) h
  · intro h
    rw [h]

theorem ch_sta_eq_iff (s ch v : Nat) :
    bpmp_ch_sta s ch = v <<< (ch * 2) ↔ chSlice s ch = v := by
  rw [ch_sta_eq_shift, shiftLeft_inj]

theorem chSlice_set (s v ch : Nat) :
    chSlice (sema_write_set s v) ch = chSlice s ch ||| chSlice v ch := by
  apply Nat.eq_of_testBit_eq
  intro i
  simp only [sema_write_set, Nat.testBit_lor, testBit_chSlice]
  by_cases hi : i < 2 <;> simp [hi]

theorem chSlice_clr (s v ch : Nat) (hch : ch < 16) :
    chSlice (sema_write_clr s v) ch = chSlice s ch &&& (chSlice v ch ^^^ 3) := by
  apply Nat.eq_of_testBit_eq
  intro i
  simp only [sema_write_clr, Nat.testBit_land, Nat.testBit_xor, testBit_chSlice,
    testBit_three]
  by_cases hi : i < 2
  · have h32 : ch * 2 + i < 32 := by omega
    have hF : Nat.testBit 0xFFFFFFFF (ch * 2 + i) = true := by
      have he : (0xFFFFFFFF : Nat) = 2 ^ 32 - 1 := by norm_num
      rw [he, Nat.testBit_two_pow_sub_one]
      exact decide_eq_true h32
    simp only [hF, decide_eq_true hi, Bool.true_and]
  · simp [hi]

theorem chSlice_xor (a b ch : Nat) :
    chSlice (a ^^^ b) ch = chSlice a ch ^^^ chSlice b ch := by
  apply Nat.eq_of_testBit_eq
  intro i
  simp only [Nat.testBit_xor, testBit_chSlice]
  by_cases hi : i < 2 <;> simp [hi]

theorem chSlice_shifted_self (v ch : Nat) :
    chSlice (v <<< (ch * 2)) ch = v % 4 := by
  apply Nat.eq_of_testBit_eq
  intro i
  have h4 : (4 : Nat) = 2 ^ 2 := by norm_num
  rw [testBit_chSlice, Nat.testBit_shiftLeft, h4, Nat.testBit_mod_two_pow]
  have hge : ch * 2 ≤ ch * 2 + i := Nat.le_add_right _ _
  simp [hge, Nat.add_sub_cancel_left, Bool.and_comm]

theorem chSlice_shifted_other (v ch ch2 : Nat) (hv : v < 4) (hne : ch2 ≠ ch) :
    chSlice (v <<< (ch * 2)) ch2 = 0 := by
  apply Nat.eq_of_testBit_eq
  intro i
  rw [testBit_chSlice, Nat.testBit_shiftLeft, Nat.zero_testBit]
  by_cases hi : i < 2
  · by_cases hk : ch * 2 ≤ ch2 * 2 + i
    · have hbig : 2 ≤ ch2 * 2 + i - ch * 2 := by omega
      have hvlt : v < 2 ^ (ch2 * 2 + i - ch * 2) := by
        calc v < 4 := hv
          _ = 2 ^ 2 := by norm_num
          _ ≤ 2 ^ (ch2 * 2 + i - ch * 2) := Nat.pow_le_pow_right (by norm_num) hbig
      simp [Nat.testBit_lt_two_pow hvlt]
    · simp [hk]
  · simp [hi]

theorem four_cases (v : Nat) (hv : v < 4) : v = 0 ∨ v = 1 ∨ v = 2 ∨ v = 3 := by
  omega

theorem chSlice_CH_MASK_self (ch : Nat) : chSlice (CH_MASK ch) ch = 3 := by
  rw [CH_MASK, chSlice_shifted_self]

theorem chSlice_MA_ACKD_self (ch : Nat) : chSlice (MA_ACKD ch) ch = 3 := by
  rw [MA_ACKD, chSlice_shifted_self]

theorem chSlice_MA_FREE_self (ch : Nat) : chSlice (MA_FREE ch) ch = 2 := by
  rw [MA_FREE, chSlice_shifted_self]

theorem chSlice_SL_QUED_self (ch : Nat) : chSlice (SL_QUED ch) ch = 1 := by
  rw [SL_QUED, chSlice_shifted_self]

theorem chSlice_SL_SIGL_self (ch : Nat) : chSlice (SL_SIGL ch) ch = 0 := by
  rw [SL_SIGL, chSlice_shifted_self]

/-! ### How each state-machine operation acts on the slice it targets and
on every other channel's slice -/

theorem chSlice_signal_slave_self (s ch : Nat) (hch : ch < 16) :
    chSlice (bpmp_signal_slave s ch) ch = 0 := by
  rw [bpmp_signal_slave, chSlice_clr _ _ _ hch, chSlice_CH_MASK_self]
  rcases four_cases _ (chSlice_lt_four s ch) with h | h | h | h <;> rw [h] <;> decide

theorem chSlice_signal_slave_other (s ch ch2 : Nat) (hch2 : ch2 < 16)
    (hne : ch2 ≠ ch) : chSlice (bpmp_signal_slave s ch) ch2 = chSlice s ch2 := by
  rw [bpmp_signal_slave, chSlice_clr _ _ _ hch2, CH_MASK,
    chSlice_shifted_other 3 ch ch2 (by norm_num) hne]
  rcases four_cases _ (chSlice_lt_four s ch2) with h | h | h | h <;> rw [h] <;> decide

theorem chSlice_ack_master_self (s ch : Nat) (hch : ch < 16) (f : Flags) :
    chSlice (bpmp_ack_master s ch f) ch = if f.doAck then 3 else 2 := by
  rw [bpmp_ack_master]
  cases hf : f.doAck
  · simp only [hf, Bool.false_eq_true, if_false]
    rw [chSlice_clr _ _ _ hch, chSlice_set, chSlice_xor, chSlice_MA_ACKD_self,
      chSlice_MA_FREE_self]
    rcases four_cases _ (chSlice_lt_four s ch) with h | h | h | h <;> rw [h] <;> decide
  · simp only [hf, if_true]
    rw [chSlice_set, chSlice_MA_ACKD_self]
    rcases four_cases _ (chSlice_lt_four s ch) with h | h | h | h <;> rw [h] <;> decide

theorem chSlice_ack_master_other (s ch ch2 : Nat) (hch2 : ch2 < 16)
    (hne : ch2 ≠ ch) (f : Flags) :
    chSlice (bpmp_ack_master s ch f) ch2 = chSlice s ch2 := by
  rw [bpmp_ack_master]
  cases hf : f.doAck
  · simp only [hf, Bool.false_eq_true, if_false]
    rw [chSlice_clr _ _ _ hch2, chSlice_set, chSlice_xor, MA_ACKD, MA_FREE,
      chSlice_shifted_other 3 ch ch2 (by norm_num) hne,
      chSlice_shifted_other 2 ch ch2 (by norm_num) hne]
    rcases four_cases _ (chSlice_lt_four s ch2) with h | h | h | h <;> rw [h] <;> decide
  · simp only [hf, if_true]
    rw [chSlice_set, MA_ACKD, chSlice_shifted_other 3 ch ch2 (by norm_num) hne]
    rcases four_cases _ (chSlice_lt_four s ch2) with h | h | h | h <;> rw [h] <;> decide

theorem chSlice_free_master_self (s ch : Nat) (hch : ch < 16) :
    chSlice (bpmp_free_master s ch) ch = chSlice s ch &&& 2 := by
  rw [bpmp_free_master, chSlice_clr _ _ _ hch, chSlice_xor, chSlice_MA_ACKD_self,
    chSlice_MA_FREE_self]
  have h : ((3 : Nat) ^^^ 2) ^^^ 3 = 2 := by decide
  rw [h]

theorem chSlice_free_master_other (s ch ch2 : Nat) (hch2 : ch2 < 16)
    (hne : ch2 ≠ ch) : chSlice (bpmp_free_master s ch) ch2 = chSlice s ch2 := by
  rw [bpmp_free_master, chSlice_clr _ _ _ hch2, chSlice_xor, MA_ACKD, MA_FREE,
    chSlice_shifted_other 3 ch ch2 (by norm_num) hne,
    chSlice_shifted_other 2 ch ch2 (by norm_num) hne]
  rcases four_cases _ (chSlice_lt_four s ch2) with h | h | h | h <;> rw [h] <;> decide

theorem chSlice_peer_write_self (s ch : Nat) (hch : ch < 16) (p : Nat) :
    chSlice (peer_write_slice s ch (p <<< (ch * 2))) ch = p % 4 := by
  rw [peer_write_slice, chSlice_set, chSlice_shifted_self,
    chSlice_clr _ _ _ hch, chSlice_CH_MASK_self]
  have hz : chSlice s ch &&& (3 ^^^ 3) = 0 := by
    rcases four_cases _ (chSlice_lt_four s ch) with h | h | h | h <;> rw [h] <;> decide
  rw [hz]
  exact Nat.zero_or _

theorem chSlice_peer_write_other (s ch ch2 : Nat) (hch2 : ch2 < 16)
    (hne : ch2 ≠ ch) (p : Nat) (hp : p < 4) :
    chSlice (peer_write_slice s ch (p <<< (ch * 2))) ch2 = chSlice s ch2 := by
  rw [peer_write_slice, chSlice_set, chSlice_shifted_other p ch ch2 hp hne,
    chSlice_clr _ _ _ hch2, CH_MASK, chSlice_shifted_other 3 ch ch2 (by norm_num) hne]
  rcases four_cases _ (chSlice_lt_four s ch2) with h | h | h | h <;> rw [h] <;> decide

/-! ### Predicate characterizations and pattern distinctness -/

theorem pred_iff_free (s ch : Nat) :
    bpmp_master_free s ch = true ↔ chSlice s ch = 2 := by
  rw [bpmp_master_free, beq_iff_eq, MA_FREE]
  exact ch_sta_eq_iff s ch 2

theorem pred_iff_sigl (s ch : Nat) :
    bpmp_slave_signalled s ch = true ↔ chSlice s ch = 0 := by
  rw [bpmp_slave_signalled, beq_iff_eq, SL_SIGL]
  exact ch_sta_eq_iff s ch 0

theorem pred_iff_ackd (s ch : Nat) :
    bpmp_master_acked s ch = true ↔ chSlice s ch = 3 := by
  rw [bpmp_master_acked, beq_iff_eq, MA_ACKD]
  exact ch_sta_eq_iff s ch 3

theorem patterns_distinct (ch : Nat) :
    SL_SIGL ch ≠ SL_QUED ch ∧ SL_SIGL ch ≠ MA_FREE ch ∧ SL_SIGL ch ≠ MA_ACKD ch ∧
      SL_QUED ch ≠ MA_FREE ch ∧ SL_QUED ch ≠ MA_ACKD ch ∧
      MA_FREE ch ≠ MA_ACKD ch := by
  refine ⟨?_, ?_, ?_, ?_, ?_, ?_⟩ <;>
    · simp only [SL_SIGL, SL_QUED, MA_FREE, MA_ACKD]
      intro heq
      exact absurd ((shiftLeft_inj _ _ _).mp heq) (by decide)

/-! ### Claim theorems -/

/-- Claim C1, counterexample to the claim as stated: with the status word 2,
channel 0's slice is exactly `MA_FREE`, yet after `bpmp_signal_slave` the
slice is not `SL_QUED` (pattern 01) — the clear of the full channel mask
leaves the slice at pattern 00. -/
theorem signal_slave_not_slave_queued_cex :
    bpmp_ch_sta 2 0 = MA_FREE 0 ∧
      bpmp_ch_sta (bpmp_signal_slave 2 0) 0 ≠ SL_QUED 0 := by
  decide

/-- Claim C1, amended: for every channel whose slice is `MA_FREE`, the
issue-request transition `bpmp_signal_slave` (a single clear-bits write of
the full channel mask) leaves the slice equal to `SL_SIGL` (pattern 00),
the slave-signalled state, not `SL_QUED`. -/
theorem signal_slave_gives_slave_signalled (s ch : Nat) (hch : ch < NR_CHANNELS)
    (hfree : bpmp_ch_sta s ch = MA_FREE ch) :
    bpmp_ch_sta (bpmp_signal_slave s ch) ch = SL_SIGL ch := by
  have hch16 : ch < 16 := by
    unfold NR_CHANNELS at hch
    omega
  rw [SL_SIGL, ch_sta_eq_iff]
  exact chSlice_signal_slave_self s ch hch16

/-- Witness for the amended C1 theorem at the concrete status word 2 and
channel 0. -/
theorem signal_slave_gives_slave_signalled_witness :
    bpmp_ch_sta (bpmp_signal_slave 2 0) 0 = SL_SIGL 0 :=
  signal_slave_gives_slave_signalled 2 0 (by decide) (by decide)

/-- Claim C5: the acknowledge step's single set-bits write of the `MA_ACKD`
pattern is absorbing — whatever the prior slice value, the slice afterwards
equals `MA_ACKD` — and with `DO_ACK` set `bpmp_ack_master` is exactly that
single set-bits write. -/
theorem ack_set_write_absorbing (s ch : Nat) (rb : Bool) :
    bpmp_ch_sta (sema_write_set s (MA_ACKD ch)) ch = MA_ACKD ch ∧
      bpmp_ack_master s ch ⟨true, rb⟩ = sema_write_set s (MA_ACKD ch) := by
  constructor
  · rw [MA_ACKD, ch_sta_eq_iff, chSlice_set, chSlice_shifted_self]
    rcases four_cases _ (chSlice_lt_four s ch) with h | h | h | h <;>
      rw [h] <;> decide
  · rfl

/-- Claim C3: from a slice the peer has signalled, acknowledging on the
immediate path (the `DO_ACK` header flag clear, the spec's
`acknowledge(ch, true)`) leaves the slice at `MA_FREE` in that one step;
acknowledging on the deferred path (`DO_ACK` set) leaves it at `MA_ACKD`,
and the subsequent explicit `bpmp_free_master` moves it to `MA_FREE`. -/
theorem ack_immediate_vs_deferred (s ch : Nat) (hch : ch < NR_CHANNELS)
    (rb : Bool) (hsig : bpmp_ch_sta s ch = SL_SIGL ch) :
    bpmp_ch_sta (bpmp_ack_master s ch ⟨false, rb⟩) ch = MA_FREE ch ∧
      bpmp_ch_sta (bpmp_ack_master s ch ⟨true, rb⟩) ch = MA_ACKD ch ∧
      bpmp_ch_sta (bpmp_free_master (bpmp_ack_master s ch ⟨true, rb⟩) ch) ch
        = MA_FREE ch := by
  have hch16 : ch < 16 := by
    unfold NR_CHANNELS at hch
    omega
  refine ⟨?_, ?_, ?_⟩
  · rw [MA_FREE, ch_sta_eq_iff, chSlice_ack_master_self s ch hch16]
    simp
  · rw [MA_ACKD, ch_sta_eq_iff, chSlice_ack_master_self s ch hch16]
    simp
  · rw [MA_FREE, ch_sta_eq_iff, chSlice_free_master_self _ ch hch16,
      chSlice_ack_master_self s ch hch16]
    simp only [if_true]
    decide

/-- Witness for the C3 theorem at status word 0 (channel 0 signalled). -/
theorem ack_immediate_vs_deferred_witness :
    bpmp_ch_sta (bpmp_ack_master 0 0 ⟨false, true⟩) 0 = MA_FREE 0 :=
  (ack_immediate_vs_deferred 0 0 (by decide) true (by decide)).1

/-- Claim C2: from `MA_FREE`, the full cycle — `bpmp_signal_slave`, the
peer writing `SL_SIGL` into the slice, `bpmp_ack_master` under either flag
policy, `bpmp_free_master` — returns channel `ch`'s slice to exactly
`MA_FREE`, and any other channel `ch2`'s slice is unchanged. -/
theorem full_cycle_roundtrip (s ch ch2 : Nat) (hch : ch < NR_CHANNELS)
    (hch2 : ch2 < NR_CHANNELS) (hne : ch2 ≠ ch) (f : Flags)
    (hfree : bpmp_ch_sta s ch = MA_FREE ch) :
    bpmp_ch_sta (bpmp_free_master (bpmp_ack_master
        (peer_write_slice (bpmp_signal_slave s ch) ch (SL_SIGL ch)) ch f) ch) ch
      = MA_FREE ch ∧
    bpmp_ch_sta (bpmp_free_master (bpmp_ack_master
        (peer_write_slice (bpmp_signal_slave s ch) ch (SL_SIGL ch)) ch f) ch) ch2
      = bpmp_ch_sta s ch2 := by
  have hch16 : ch < 16 := by
    unfold NR_CHANNELS at hch
    omega
  have hch216 : ch2 < 16 := by
    unfold NR_CHANNELS at hch2
    omega
  constructor
  · rw [MA_FREE, ch_sta_eq_iff, chSlice_free_master_self _ ch hch16,
      chSlice_ack_master_self _ ch hch16 f]
    cases hf : f.doAck <;> simp [hf] <;> decide
  · have h : chSlice (bpmp_free_master (bpmp_ack_master
        (peer_write_slice (bpmp_signal_slave s ch) ch (SL_SIGL ch)) ch f) ch) ch2
        = chSlice s ch2 := by
      rw [chSlice_free_master_other _ ch ch2 hch216 hne,
        chSlice_ack_master_other _ ch ch2 hch216 hne f, SL_SIGL,
        chSlice_peer_write_other _ ch ch2 hch216 hne 0 (by norm_num),
        chSlice_signal_slave_other s ch ch2 hch216 hne]
    rw [ch_sta_eq_shift, ch_sta_eq_shift, h]

/-- Witness for the C2 theorem: status word 2, cycled channel 0, observer
channel 1, deferred-ack flags. -/
theorem full_cycle_roundtrip_witness :
    bpmp_ch_sta (bpmp_free_master (bpmp_ack_master
        (peer_write_slice (bpmp_signal_slave 2 0) 0 (SL_SIGL 0)) 0
        ⟨true, true⟩) 0) 0 = MA_FREE 0 :=
  (full_cycle_roundtrip 2 0 1 (by decide) (by decide) (by decide)
    ⟨true, true⟩ (by decide)).1

/-- Claim C4: every status word decodes, on every channel, to exactly one
of the four token patterns (exhaustive and pairwise distinct); the decode
predicates are functions of the channel's slice of the status word alone;
and at most one of `bpmp_master_free`, `bpmp_slave_signalled`,
`bpmp_master_acked` is true. -/
theorem token_patterns_exclusive_exhaustive (s s2 ch : Nat) :
    (bpmp_ch_sta s ch = SL_SIGL ch ∨ bpmp_ch_sta s ch = SL_QUED ch ∨
      bpmp_ch_sta s ch = MA_FREE ch ∨ bpmp_ch_sta s ch = MA_ACKD ch) ∧
    (SL_SIGL ch ≠ SL_QUED ch ∧ SL_SIGL ch ≠ MA_FREE ch ∧
      SL_SIGL ch ≠ MA_ACKD ch ∧ SL_QUED ch ≠ MA_FREE ch ∧
      SL_QUED ch ≠ MA_ACKD ch ∧ MA_FREE ch ≠ MA_ACKD ch) ∧
    (bpmp_ch_sta s ch = bpmp_ch_sta s2 ch →
      bpmp_master_free s ch = bpmp_master_free s2 ch ∧
      bpmp_slave_signalled s ch = bpmp_slave_signalled s2 ch ∧
      bpmp_master_acked s ch = bpmp_master_acked s2 ch) ∧
    ((bpmp_master_free s ch && bpmp_slave_signalled s ch) = false ∧
      (bpmp_master_free s ch && bpmp_master_acked s ch) = false ∧
      (bpmp_slave_signalled s ch && bpmp_master_acked s ch) = false) := by
  refine ⟨?_, patterns_distinct ch, ?_, ?_, ?_, ?_⟩
  · rcases four_cases _ (chSlice_lt_four s ch) with h | h | h | h
    · exact Or.inl ((ch_sta_eq_iff s ch 0).mpr h)
    · exact Or.inr (Or.inl ((ch_sta_eq_iff s ch 1).mpr h))
    · exact Or.inr (Or.inr (Or.inl ((ch_sta_eq_iff s ch 2).mpr h)))
    · exact Or.inr (Or.inr (Or.inr ((ch_sta_eq_iff s ch 3).mpr h)))
  · intro h
    refine ⟨?_, ?_, ?_⟩
    · simp only [bpmp_master_free, h]
    · simp only [bpmp_slave_signalled, h]
    · simp only [bpmp_master_acked, h]
  · cases hmf : bpmp_master_free s ch
    · simp
    · cases hss : bpmp_slave_signalled s ch
      · simp
      · have ha := (pred_iff_free s ch).mp hmf
        have hb := (pred_iff_sigl s ch).mp hss
        exact absurd (ha.symm.trans hb) (by decide)
  · cases hmf : bpmp_master_free s ch
    · simp
    · cases hma : bpmp_master_acked s ch
      · simp
      · have ha := (pred_iff_free s ch).mp hmf
        have hb := (pred_iff_ackd s ch).mp hma
        exact absurd (ha.symm.trans hb) (by decide)
  · cases hss : bpmp_slave_signalled s ch
    · simp
    · cases hma : bpmp_master_acked s ch
      · simp
      · have ha := (pred_iff_sigl s ch).mp hss
        have hb := (pred_iff_ackd s ch).mp hma
        exact absurd (ha.symm.trans hb) (by decide)

/-- Witness for the C4 theorem: the purity implication applied at the
concrete status words 2 and 6 (identical slice on channel 0). -/
theorem token_patterns_witness :
    bpmp_master_free 2 0 = bpmp_master_free 6 0 :=
  ((token_patterns_exclusive_exhaustive 2 6 0).2.2.1 (by decide)).1

/-! ### Loop lemmas for the connect handshake and the irq registration -/

theorem connect_query_loop_zero (env : ConnectEnv) (i : Nat) :
    connect_query_loop env i 0 = ([], true) := rfl

theorem connect_query_loop_succ (env : ConnectEnv) (i n : Nat) :
    connect_query_loop env i (n + 1) =
      if env.chanAddr i = 0 then ([i], false)
      else (i :: (connect_query_loop env (i + 1) n).1,
        (connect_query_loop env (i + 1) n).2) := rfl

theorem connect_query_loop_stops (env : ConnectEnv) (n : Nat) :
    ∀ s i, s ≤ i → i < s + n →
      (∀ j, s ≤ j → j < i → env.chanAddr j ≠ 0) → env.chanAddr i = 0 →
      connect_query_loop env s n = (List.range' s (i - s + 1), false) := by
  induction n with
  | zero =>
    intro s i hsi hin _ _
    omega
  | succ n ih =>
    intro s i hsi hin hall hi
    rw [connect_query_loop_succ]
    by_cases hs : env.chanAddr s = 0
    · have heq : i = s := by
        by_contra hne
        exact hall s (le_refl s) (by omega) hs
      rw [if_pos hs, heq]
      simp [List.range'_one]
    · have hne : s ≠ i := fun he => hs (he ▸ hi)
      have hlt : s < i := by omega
      rw [if_neg hs,
        ih (s + 1) i (by omega) (by omega) (fun j h1 h2 => hall j (by omega) h2) hi]
      have hc : i - s + 1 = (i - (s + 1) + 1) + 1 := by omega
      rw [hc]
      simp [List.range'_succ]

theorem init_irq_loop_zero (env : IrqEnv) (i : Nat) :
    init_irq_loop env i 0 = (0, []) := rfl

theorem init_irq_loop_succ (env : IrqEnv) (i n : Nat) :
    init_irq_loop env i (n + 1) =
      if env.regResult i ≠ 0 then (env.regResult i, [(i, PER_CPU_IB_CH i)])
      else ((init_irq_loop env (i + 1) n).1,
        (i, PER_CPU_IB_CH i) :: (init_irq_loop env (i + 1) n).2) := rfl

theorem init_irq_loop_stops (env : IrqEnv) (n : Nat) :
    ∀ s i, s ≤ i → i < s + n →
      (∀ j, s ≤ j → j < i → env.regResult j = 0) → env.regResult i ≠ 0 →
      init_irq_loop env s n
        = (env.regResult i, (List.range' s (i - s + 1)).map fun j => (j, PER_CPU_IB_CH j)) := by
  induction n with
  | zero =>
    intro s i hsi hin _ _
    omega
  | succ n ih =>
    intro s i hsi hin hall hi
    rw [init_irq_loop_succ]
    by_cases hs : env.regResult s = 0
    · have hne : s ≠ i := fun he => hi (he ▸ hs)
      have hlt : s < i := by omega
      rw [if_neg (by simpa using hs),
        ih (s + 1) i (by omega) (by omega) (fun j h1 h2 => hall j (by omega) h2) hi]
      have hc : i - s + 1 = (i - (s + 1) + 1) + 1 := by omega
      rw [hc]
      simp [List.range'_succ]
    · have heq : i = s := by
        by_contra hne
        exact hs (hall s (le_refl s) (by omega))
      rw [if_pos (by simpa using hs), heq]
      simp [List.range'_one]

theorem init_irq_loop_all_ok (env : IrqEnv) (n : Nat) :
    ∀ s, (∀ j, s ≤ j → j < s + n → env.regResult j = 0) →
      init_irq_loop env s n = (0, (List.range' s n).map fun j => (j, PER_CPU_IB_CH j)) := by
  induction n with
  | zero =>
    intro s _
    rfl
  | succ n ih =>
    intro s hall
    have hs : env.regResult s = 0 := hall s (le_refl s) (by omega)
    rw [init_irq_loop_succ, if_neg (by simpa using hs),
      ih (s + 1) (fun j h1 h2 => hall j (by omega) (by omega)), List.range'_succ]
    simp

/-- Claim C6: `bpmp_return_data` with a size strictly greater than the
payload capacity is a complete no-op apart from the warning: the outbound
area (code field and payload bytes), the semaphore word (so every token
slice) and the doorbell count are unchanged, and exactly one warning is
emitted; no acknowledge and no doorbell ring happen. -/
theorem return_data_oversize_noop (st : MailState) (ch : Nat) (code : Int)
    (data : List Nat) (sz : Nat) (hsz : sz > MSG_DATA_MIN_SZ) :
    (bpmp_return_data st ch code data sz).areaOb = st.areaOb ∧
      (bpmp_return_data st ch code data sz).sema = st.sema ∧
      (bpmp_return_data st ch code data sz).doorbells = st.doorbells ∧
      (bpmp_return_data st ch code data sz).warnings = st.warnings + 1 := by
  rw [bpmp_return_data, if_pos hsz]
  exact ⟨rfl, rfl, rfl, rfl⟩

/-- Witness for the C6 theorem: an empty mailbox state and a write of 121
bytes, one over the capacity. -/
theorem return_data_oversize_noop_witness :
    (bpmp_return_data
        ⟨0, fun _ => ⟨0, ⟨false, false⟩, []⟩, fun _ => ⟨0, ⟨false, false⟩, []⟩, 0, 0⟩
        0 1 [] 121).warnings = 0 + 1 :=
  (return_data_oversize_noop
    ⟨0, fun _ => ⟨0, ⟨false, false⟩, []⟩, fun _ => ⟨0, ⟨false, false⟩, []⟩, 0, 0⟩
    0 1 [] 121 (by decide)).2.2.2

/-- Claim C7: when the register windows map and the liveness check passes,
but channel `i`'s address resolves to zero while all earlier channels
resolve, `bpmp_connect` returns `-EFAULT`, the trigger/result handshake was
issued exactly for channels `0..i` (none after `i`), and no channel area
was mapped. -/
theorem connect_fail_fast (env : ConnectEnv) (i : Nat)
    (hatom : env.hasAtomics = true) (harb : env.hasArbSema = true)
    (hsta : env.staWord ≠ 0) (hi : i < NR_CHANNELS)
    (hall : ∀ j, j < i → env.chanAddr j ≠ 0) (hzero : env.chanAddr i = 0) :
    bpmp_connect env = ⟨-EFAULT, List.range (i + 1), []⟩ ∧
      ∀ j, j ∈ (bpmp_connect env).queried → j ≤ i := by
  have hq : connect_query_loop env 0 NR_CHANNELS = (List.range' 0 (i + 1), false) := by
    have h := connect_query_loop_stops env NR_CHANNELS 0 i (Nat.zero_le i)
      (by rw [Nat.zero_add]; exact hi) (fun j _ hj => hall j hj) hzero
    simpa using h
  have hmain : bpmp_connect env = ⟨-EFAULT, List.range (i + 1), []⟩ := by
    simp [bpmp_connect, hatom, harb, hsta, hq, List.range_eq_range']
  refine ⟨hmain, ?_⟩
  intro j hj
  rw [hmain] at hj
  simp only [List.mem_range] at hj
  omega

/-- Witness for the C7 theorem: an environment whose channel 3 address is
zero while channels 0, 1, 2 resolve. -/
theorem connect_fail_fast_witness :
    bpmp_connect ⟨true, true, 5, fun j => if j = 3 then 0 else 1⟩
      = ⟨-EFAULT, List.range 4, []⟩ :=
  (connect_fail_fast ⟨true, true, 5, fun j => if j = 3 then 0 else 1⟩ 3 rfl rfl
    (by decide) (by decide) (fun j hj => by interval_cases j <;> decide)
    (by decide)).1

/-- Claim C8, counterexample to the claim as stated: a missing register
window and an all-zero status word are two different connect failure modes,
yet both surface as the very same error value `-ENODEV`; the three modes
are not pairwise distinct. -/
theorem connect_errors_not_distinct_cex :
    (bpmp_connect ⟨false, false, 0, fun _ => 0⟩).ret = -ENODEV ∧
      (bpmp_connect ⟨true, true, 0, fun _ => 1⟩).ret = -ENODEV := by
  exact ⟨rfl, rfl⟩

/-- Claim C8, amended: a zero channel address surfaces as `-EFAULT`, which
is distinct from `-ENODEV`; but a missing register window and an all-zero
status word both surface as the same value `-ENODEV`, so only the
channel-address failure is distinguishable from the other two modes. -/
theorem connect_error_values (env : ConnectEnv) (i : Nat) :
    (env.hasAtomics = false → (bpmp_connect env).ret = -ENODEV) ∧
      (env.hasArbSema = false → (bpmp_connect env).ret = -ENODEV) ∧
      (env.hasAtomics = true → env.hasArbSema = true → env.staWord = 0 →
        (bpmp_connect env).ret = -ENODEV) ∧
      (env.hasAtomics = true → env.hasArbSema = true → env.staWord ≠ 0 →
        i < NR_CHANNELS → (∀ j, j < i → env.chanAddr j ≠ 0) →
        env.chanAddr i = 0 → (bpmp_connect env).ret = -EFAULT) ∧
      (-EFAULT : Int) ≠ -ENODEV := by
  refine ⟨?_, ?_, ?_, ?_, by decide⟩
  · intro h
    simp [bpmp_connect, h]
  · intro h
    cases ha : env.hasAtomics <;> simp [bpmp_connect, h, ha]
  · intro h1 h2 h3
    simp [bpmp_connect, h1, h2, h3]
  · intro h1 h2 h3 h4 h5 h6
    have hq := connect_query_loop_stops env NR_CHANNELS 0 i (Nat.zero_le i)
      (by rw [Nat.zero_add]; exact h4) (fun j _ hj => h5 j hj) h6
    simp [bpmp_connect, h1, h2, h3, hq]

/-- Witness for the amended C8 theorem: the `-EFAULT` mode at a concrete
environment. -/
theorem connect_error_values_witness :
    (bpmp_connect ⟨true, true, 5, fun j => if j = 3 then 0 else 1⟩).ret
      = -EFAULT :=
  (connect_error_values ⟨true, true, 5, fun j => if j = 3 then 0 else 1⟩
      3).2.2.2.1 rfl rfl (by decide) (by decide)
    (fun j hj => by interval_cases j <;> decide) (by decide)

/-- Claim C9: if registering the doorbell handler fails for CPU `i` with a
nonzero result `r` after CPUs before `i` succeeded, `bpmp_init_irq` returns
`r` and registration was attempted exactly for CPUs `0..i` (none after
`i`); if all four registrations succeed it returns 0, having bound, for
each CPU `i`, the handler to inbound channel `8 + i`. -/
theorem init_irq_registration (env : IrqEnv) (i : Nat) (r : Int) :
    (i < 4 → (∀ j, j < i → env.regResult j = 0) → env.regResult i = r →
      r ≠ 0 →
      bpmp_init_irq env
        = (r, (List.range (i + 1)).map fun j => (j, PER_CPU_IB_CH j))) ∧
      ((∀ j, j < 4 → env.regResult j = 0) →
        bpmp_init_irq env = (0, [(0, 8), (1, 9), (2, 10), (3, 11)])) := by
  constructor
  · intro h4 hall hri hr
    have hq := init_irq_loop_stops env 4 0 i (Nat.zero_le i) (by omega)
      (fun j _ hj => hall j hj) (by rw [hri]; exact hr)
    rw [bpmp_init_irq, hq, hri]
    simp [List.range_eq_range']
  · intro hall
    have hq := init_irq_loop_all_ok env 4 0 (fun j _ hj => hall j (by omega))
    rw [bpmp_init_irq, hq]
    decide

/-- Witness for the C9 theorem: the all-success environment yields the four
bindings to channels 8, 9, 10, 11. -/
theorem init_irq_registration_witness :
    bpmp_init_irq ⟨fun _ => 0⟩ = (0, [(0, 8), (1, 9), (2, 10), (3, 11)]) :=
  (init_irq_registration ⟨fun _ => 0⟩ 0 0).2 fun _ _ => rfl

/-- Claim C10: the deferrable-channel index maps are mutually inverse on
their intended ranges and total: `bpmp_thread_ch_index` is a left inverse
of `bpmp_thread_ch` on ordinals 0..3, a right inverse on channels 4..7,
and `-1` on every channel outside 4..7. -/
theorem thread_ch_maps_inverse (i ch : Int) :
    (0 ≤ i → i ≤ 3 → bpmp_thread_ch_index (bpmp_thread_ch i) = i) ∧
      (4 ≤ ch → ch ≤ 7 → bpmp_thread_ch (bpmp_thread_ch_index ch) = ch) ∧
      ((ch < 4 ∨ ch > 7) → bpmp_thread_ch_index ch = -1) := by
  refine ⟨fun h0 h3 => ?_, fun h4 h7 => ?_, fun h => ?_⟩ <;>
    simp only [bpmp_thread_ch_index, bpmp_thread_ch, CPU0_OB_CH1, CPU3_OB_CH1] <;>
    split_ifs <;> omega

/-- Witness for the C10 theorem at ordinal 2 and channel 0. -/
theorem thread_ch_maps_inverse_witness :
    bpmp_thread_ch_index (bpmp_thread_ch 2) = 2 :=
  (thread_ch_maps_inverse 2 0).1 (by decide) (by decide)
